import Mathlib

/-!
Verification of the local intent-detection and dispatch layer of the
voice-assistant repository.

Strings are modelled as `List Char`.  Each definition below is a direct
translation of a function from the source tree:

* `matchesAny`, `removeWakeWord`, `extractNumber`, `extractAppName`,
  `extractContact`, `extractMessage` — from `src/brain/localBrain.ts`;
* `extractFileName`, `extractFileContent` — from the nlp-helper section of
  `src/unnamed/part_007` (the only definitions of these functions in the
  repository; `src/brain/intentEngine.ts` imports them);
* `detectIntent` — from `src/brain/intentEngine.ts`;
* `dispatch` — from `src/dispatcher.ts`;
* `APP_COMMANDS` / `openApp` — from `src/unnamed/part_006`.

JavaScript string primitives (`includes`, one-shot `replace`, `trim`,
`toLowerCase`) and the specific regular expressions used by the extractors
are given explicit executable models.  `toLowerCase` is modelled on the
ASCII range, which covers every literal the program matches against.
-/

namespace VoiceAssist

/-- JS whitespace for `trim` and the regex class `\s` (ASCII part:
space, tab, line feed, carriage return, vertical tab, form feed). -/
def isWsChar (c : Char) : Bool :=
  c == ' ' || c == '\t' || c == '\n' || c == '\r' || c.toNat == 11 || c.toNat == 12

/-- Regex class `[a-z]` under the `i` flag: any ASCII letter. -/
def isAsciiLetter (c : Char) : Bool :=
  (97 ≤ c.toNat && c.toNat ≤ 122) || (65 ≤ c.toNat && c.toNat ≤ 90)

/-- Regex class `\d`. -/
def isDigitC (c : Char) : Bool :=
  48 ≤ c.toNat && c.toNat ≤ 57

/-- Regex class `[a-zA-Z0-9._-]` used by the file-name extractor. -/
def isFileNameChar (c : Char) : Bool :=
  isAsciiLetter c || isDigitC c || c == '.' || c == '_' || c == '-'

/-- Regex `.` : any character except a line terminator. -/
def isDotC (c : Char) : Bool :=
  !(c == '\n' || c == '\r')

/-- `String.prototype.toLowerCase`, restricted to ASCII. -/
def jsLower (t : List Char) : List Char :=
  t.map Char.toLower

/-- `String.prototype.trim`: drop whitespace from both ends. -/
def trimL (t : List Char) : List Char :=
  ((t.dropWhile isWsChar).reverse.dropWhile isWsChar).reverse

/-- Boolean list-prefix test (helper for `includes`). -/
def listPre : List Char → List Char → Bool
  | [], _ => true
  | _ :: _, [] => false
  | a :: w, b :: t => a == b && listPre w t

/-- `String.prototype.includes`: `includes t w` is true iff `w` occurs as a
contiguous substring of `t`. -/
def includes : List Char → List Char → Bool
  | [], w => w.isEmpty
  | c :: t, w => listPre w (c :: t) || includes t w

/-- One-shot `String.prototype.replace` with a plain-string pattern:
replace the first occurrence of `w` in the subject by `r`. -/
def replaceFirst (w r : List Char) : List Char → List Char
  | [] => if w.isEmpty then r else []
  | c :: t => if listPre w (c :: t) then r ++ (c :: t).drop w.length
              else c :: replaceFirst w r t

/-- Case-insensitive literal-at-position test: the lowercase literal `w`
matches the front of `t` under the regex `i` flag. -/
def ciPref (w t : List Char) : Bool :=
  listPre w (jsLower t)

/-- Leftmost-match regex search: try the position matcher at each start
position (suffix) of the subject, leftmost first — the semantics of
`String.prototype.match` without the `g` flag. -/
def scanOpt (f : List Char → Option (List Char)) : List Char → Option (List Char)
  | [] => f []
  | c :: t =>
    match f (c :: t) with
    | some r => some r
    | none => scanOpt f t

/-- Position matcher for `w\s+([cls]+)` (e.g. `/to\s+([a-z]+)/i`): literal
`w`, at least one whitespace, then a nonempty greedy run of `cls`
characters, which is the capture. -/
def tryWordWsClass (w : List Char) (cls : Char → Bool) (t : List Char) :
    Option (List Char) :=
  if ciPref w t then
    let r1 := t.drop w.length
    let ws := r1.takeWhile isWsChar
    if ws.isEmpty then none
    else
      let cap := (r1.drop ws.length).takeWhile cls
      if cap.isEmpty then none else some cap
  else none

/-- Position matcher for `w\s+(.*)` (e.g. `/message\s+(.*)/i`): literal `w`,
at least one whitespace, then capture everything up to the line end. -/
def tryWordWsRest (w t : List Char) : Option (List Char) :=
  if ciPref w t then
    let r1 := t.drop w.length
    let ws := r1.takeWhile isWsChar
    if ws.isEmpty then none
    else some ((r1.drop ws.length).takeWhile isDotC)
  else none

/-- Word list literals used throughout the classifier. -/
def bumbaWord : List Char := ("bumba").data

def heyBumbaWord : List Char := ("hey bumba").data

def okBumbaWord : List Char := ("ok bumba").data

def assistWord : List Char := ("assistance").data

def toWord : List Char := ("to").data

def whatsappWord : List Char := ("whatsapp").data

def messageWord : List Char := ("message").data

def textWord : List Char := ("text").data

/-- Position matcher for `/message\s+to\s+[a-z]+\s+(.*)/i`. -/
def tryMsgToRest (t : List Char) : Option (List Char) :=
  if ciPref messageWord t then
    let r1 := t.drop messageWord.length
    let ws1 := r1.takeWhile isWsChar
    if ws1.isEmpty then none
    else
      let r2 := r1.drop ws1.length
      if ciPref toWord r2 then
        let r3 := r2.drop toWord.length
        let ws2 := r3.takeWhile isWsChar
        if ws2.isEmpty then none
        else
          let r4 := r3.drop ws2.length
          let nm := r4.takeWhile isAsciiLetter
          if nm.isEmpty then none
          else
            let r5 := r4.drop nm.length
            let ws3 := r5.takeWhile isWsChar
            if ws3.isEmpty then none
            else some ((r5.drop ws3.length).takeWhile isDotC)
      else none
  else none

/-- Position matcher for `/with\s+text\s+(.*)/i` (file-content extractor). -/
def tryWithTextRest (t : List Char) : Option (List Char) :=
  if ciPref (("with").data) t then
    let r1 := t.drop 4
    let ws1 := r1.takeWhile isWsChar
    if ws1.isEmpty then none
    else
      let r2 := r1.drop ws1.length
      if ciPref textWord r2 then
        let r3 := r2.drop textWord.length
        let ws2 := r3.takeWhile isWsChar
        if ws2.isEmpty then none
        else some ((r3.drop ws2.length).takeWhile isDotC)
      else none
  else none

/- =========================
   localBrain.ts
========================= -/

/-- `matchesAny(text, words)`: `words.some(w => text.includes(w))`. -/
def matchesAny (t : List Char) (ws : List (List Char)) : Bool :=
  ws.any (fun w => includes t w)

/-- `WAKE_WORDS` of `localBrain.ts` (note: `'assistance'` is absent here). -/
def WAKE_WORDS : List (List Char) := [bumbaWord, heyBumbaWord, okBumbaWord]

/-- `removeWakeWord(text)`: replace the first occurrence of each wake word
(in list order) by the empty string, then trim. -/
def removeWakeWord (t : List Char) : List Char :=
  trimL (WAKE_WORDS.foldl (fun acc w => replaceFirst w [] acc) t)

/-- First run of decimal digits in the text, if any (regex `/\d+/`). -/
def firstDigitRun : List Char → Option (List Char)
  | [] => none
  | c :: t => if isDigitC c then some (c :: t.takeWhile isDigitC)
              else firstDigitRun t

/-- Decimal value of a digit run (`Number(m[0])` on a `\d+` match). -/
def digitsToNat (ds : List Char) : Nat :=
  ds.foldl (fun n c => 10 * n + (c.toNat - 48)) 0

/-- `extractNumber(text, fallback)`: value of the first decimal run, else
the fallback. -/
def extractNumber (t : List Char) (fallback : Nat) : Nat :=
  match firstDigitRun t with
  | some ds => digitsToNat ds
  | none => fallback

/-- `APP_ALIASES` of `localBrain.ts`: canonical app key to alias substrings,
in declaration order. -/
def APP_ALIASES : List (List Char × List (List Char)) :=
  [ (("chrome").data, [("chrome").data, ("browser").data, ("google").data])
  , (("whatsapp").data, [("whatsapp").data, ("whats app").data, ("chat").data])
  , (("notepad").data, [("notepad").data, ("editor").data, ("note").data])
  , (("calculator").data, [("calculator").data, ("calc").data]) ]

/-- `extractAppName(text)`: first app (in `APP_ALIASES` order) one of whose
aliases occurs in the text; `null` if none. -/
def extractAppName (t : List Char) : Option (List Char) :=
  (APP_ALIASES.find? (fun p => p.2.any (fun w => includes t w))).map Prod.fst

/-- `extractContact(text)`: `/to\s+([a-z]+)/i` else `/whatsapp\s+([a-z]+)/i`,
capture group, else `null`. -/
def extractContact (t : List Char) : Option (List Char) :=
  match scanOpt (tryWordWsClass toWord isAsciiLetter) t with
  | some r => some r
  | none => scanOpt (tryWordWsClass whatsappWord isAsciiLetter) t

/-- `extractMessage(text)`: `/message\s+to\s+[a-z]+\s+(.*)/i` else
`/message\s+(.*)/i` else `/text\s+(.*)/i`; the capture is trimmed;
`null` if no pattern matches. -/
def extractMessage (t : List Char) : Option (List Char) :=
  (match scanOpt tryMsgToRest t with
   | some r => some r
   | none =>
     match scanOpt (tryWordWsRest messageWord) t with
     | some r => some r
     | none => scanOpt (tryWordWsRest textWord) t).map trimL

/- =========================
   nlp helpers of src/unnamed/part_007 (file name / content)
========================= -/

/-- `extractFileName(text)`: `/named\s+([a-zA-Z0-9._-]+)/i` else
`/file\s+([a-zA-Z0-9._-]+)/i` else `/create\s+([a-zA-Z0-9._-]+)/i`,
defaulting to `new_file.txt`. -/
def extractFileName (t : List Char) : List Char :=
  match scanOpt (tryWordWsClass (("named").data) isFileNameChar) t with
  | some r => r
  | none =>
    match scanOpt (tryWordWsClass (("file").data) isFileNameChar) t with
    | some r => r
    | none =>
      match scanOpt (tryWordWsClass (("create").data) isFileNameChar) t with
      | some r => r
      | none => ("new_file.txt").data

/-- `extractFileContent(text)`: `/content\s+(.*)/i` else `/saying\s+(.*)/i`
else `/with\s+text\s+(.*)/i`, trimmed, defaulting to the fixed string. -/
def extractFileContent (t : List Char) : List Char :=
  match scanOpt (tryWordWsRest (("content").data)) t with
  | some r => trimL r
  | none =>
    match scanOpt (tryWordWsRest (("saying").data)) t with
    | some r => trimL r
    | none =>
      match scanOpt tryWithTextRest t with
      | some r => trimL r
      | none => ("Created by Myra Assistant").data

/- =========================
   intentEngine.ts
========================= -/

/-- The `Intent` union of `src/brain/intentEngine.ts`. -/
inductive Intent where
  | OPEN_APP (app : List Char)
  | VOLUME (value : Nat)
  | SEND_MESSAGE (recipient msgText : List Char)
  | CREATE_FILE (fileName fileContent : List Char)
  | CHAT (chatText : List Char)
  | WAKE_UP (raw : List Char)
  | AI_FALLBACK (raw : List Char)
  deriving DecidableEq, Repr

/-- JS truthiness of a string-or-null value: `null` and the empty string
are falsy. -/
def jsTruthy : Option (List Char) → Bool
  | none => false
  | some s => !s.isEmpty

/-- Wake-word list local to `detectIntent` (includes `'assistance'`). -/
def detectWakeWords : List (List Char) :=
  [assistWord, bumbaWord, heyBumbaWord, okBumbaWord]

def createFileKeywords : List (List Char) :=
  [("create file").data, ("new file").data, ("text file").data, ("document").data]

def openKeywords : List (List Char) :=
  [("open").data, ("launch").data, ("start").data]

def volumeKeywords : List (List Char) :=
  [("volume").data, ("sound").data, ("voice").data]

def sendKeywords : List (List Char) :=
  [("send").data, ("message").data, ("text").data, ("whatsapp").data]

/-- The `clean` value of `detectIntent`: wake words removed from the
lowercased, trimmed input. -/
def cleanedText (rawText : List Char) : List Char :=
  removeWakeWord (trimL (jsLower rawText))

/-- `detectIntent(rawText)` of `src/brain/intentEngine.ts`.  The source is a
sequence of early returns; successive guards here mirror it exactly.  A
category whose keywords match but whose slot extraction yields a falsy value
(`null` or the empty string) falls through to the next guard, as in the
source where the `return` inside the category block is itself guarded. -/
def detectIntent (rawText : List Char) : Intent :=
  if rawText.isEmpty then .CHAT [] else
  if !matchesAny (trimL (jsLower rawText)) detectWakeWords then .CHAT rawText else
  if (cleanedText rawText).isEmpty || decide ((cleanedText rawText).length < 2) then
    .WAKE_UP rawText else
  if matchesAny (cleanedText rawText) createFileKeywords then
    .CREATE_FILE (extractFileName (cleanedText rawText))
      (extractFileContent (cleanedText rawText)) else
  if matchesAny (cleanedText rawText) openKeywords
      && jsTruthy (extractAppName (cleanedText rawText)) then
    .OPEN_APP ((extractAppName (cleanedText rawText)).getD []) else
  if matchesAny (cleanedText rawText) volumeKeywords then
    .VOLUME (extractNumber (cleanedText rawText) 50) else
  if matchesAny (cleanedText rawText) sendKeywords
      && jsTruthy (extractContact (cleanedText rawText))
      && jsTruthy (extractMessage (cleanedText rawText)) then
    .SEND_MESSAGE ((extractContact (cleanedText rawText)).getD [])
      ((extractMessage (cleanedText rawText)).getD []) else
  .AI_FALLBACK (cleanedText rawText)

/- =========================
   dispatcher.ts
========================= -/

/-- One call to an action function, as performed by `dispatch`. -/
inductive ActionCall where
  | openAppCall (app : List Char)
  | setVolumeCall (value : Nat)
  | sendMessageCall (recipient msgText : List Char)
  deriving DecidableEq, Repr

/-- Observable effect of one `dispatch` call: the action functions invoked
and the log lines emitted (a log line carries `intent.text`, which is
`undefined` — here `none` — for variants without a `text` field). -/
structure DispatchEffect where
  actions : List ActionCall
  logs : List (Option (List Char))
  deriving DecidableEq, Repr

/-- The `text` property access `intent.text` performed by the default arm of
the dispatcher switch: present on `CHAT` and `SEND_MESSAGE`, absent
(`undefined`) elsewhere. -/
def intentTextField : Intent → Option (List Char)
  | .CHAT t => some t
  | .SEND_MESSAGE _ m => some m
  | _ => none

/-- `dispatch(intent)` of `src/dispatcher.ts`: switch with one action call
per recognized tag, and a log-only default arm. -/
def dispatch : Intent → DispatchEffect
  | .OPEN_APP a => ⟨[.openAppCall a], []⟩
  | .VOLUME v => ⟨[.setVolumeCall v], []⟩
  | .SEND_MESSAGE r m => ⟨[.sendMessageCall r m], []⟩
  | i => ⟨[], [intentTextField i]⟩

/- =========================
   openApp action (src/unnamed/part_006)
========================= -/

/-- `APP_COMMANDS` registry of the open-app action. -/
def APP_COMMANDS : List (List Char × List Char) :=
  [ (("chrome").data, ("start chrome").data)
  , (("whatsapp").data, ("start whatsapp:").data)
  , (("notepad").data, ("notepad").data)
  , (("calculator").data, ("calc").data) ]

/-- Outcome of `openApp`: either the command string handed to `exec`, or the
unsupported-app branch. -/
inductive OpenAppResult where
  | launched (cmd : List Char)
  | unsupported
  deriving DecidableEq, Repr

/-- `openApp(app)`: look up `APP_COMMANDS[app.toLowerCase()]`; if absent,
take the unsupported branch, otherwise spawn the command. -/
def openApp (app : List Char) : OpenAppResult :=
  match (APP_COMMANDS.find? (fun p => p.1 == jsLower app)).map Prod.snd with
  | some cmd => OpenAppResult.launched cmd
  | none => OpenAppResult.unsupported

/-- Every alias substring recognized by `extractAppName`, flattened. -/
def allAppAliases : List (List Char) :=
  (APP_ALIASES.map Prod.snd).flatten

/- =========================
   Supporting lemmas
========================= -/

theorem listPre_iff (w : List Char) : ∀ t, listPre w t = true ↔ ∃ r, t = w ++ r := by
  induction w with
  | nil =>
    intro t
    simp [listPre]
  | cons a w ih =>
    intro t
    cases t with
    | nil =>
      simp [listPre]
    | cons b t =>
      simp only [listPre, Bool.and_eq_true, beq_iff_eq, ih, List.cons_append,
        List.cons.injEq]
      constructor
      · rintro ⟨rfl, r, rfl⟩
        exact ⟨r, rfl, rfl⟩
      · rintro ⟨r, rfl, rfl⟩
        exact ⟨rfl, r, rfl⟩

theorem includes_iff : ∀ t w : List Char, includes t w = true ↔ ∃ l r, t = l ++ w ++ r := by
  intro t
  induction t with
  | nil =>
    intro w
    simp only [includes, List.isEmpty_iff]
    constructor
    · rintro rfl
      exact ⟨[], [], rfl⟩
    · rintro ⟨l, r, h⟩
      rcases List.append_eq_nil.mp h.symm with ⟨h1, h2⟩
      rcases List.append_eq_nil.mp h1 with ⟨h3, h4⟩
      exact h4
  | cons c t ih =>
    intro w
    simp only [includes, Bool.or_eq_true, listPre_iff, ih]
    constructor
    · rintro (⟨r, h⟩ | ⟨l, r, h⟩)
      · exact ⟨[], r, by simpa using h⟩
      · exact ⟨c :: l, r, by simp [h]⟩
    · rintro ⟨l, r, h⟩
      cases l with
      | nil =>
        left
        exact ⟨r, by simpa using h⟩
      | cons x l =>
        right
        rw [List.cons_append, List.cons_append, List.cons.injEq] at h
        exact ⟨l, r, by simpa using h.2⟩

theorem includes_of_prefix_word (t u w : List Char)
    (h : includes t (u ++ w) = true) : includes t w = true := by
  rw [includes_iff] at h ⊢
  obtain ⟨l, r, rfl⟩ := h
  exact ⟨l ++ u, r, by simp⟩

theorem includes_reverse (t w : List Char) (h : includes t w = true) :
    includes t.reverse w.reverse = true := by
  rw [includes_iff] at h ⊢
  obtain ⟨l, r, rfl⟩ := h
  exact ⟨r.reverse, l.reverse, by simp⟩

theorem includes_of_listPre (w t : List Char) (h : listPre w t = true) :
    includes t w = true := by
  cases t with
  | nil =>
    cases w with
    | nil => rfl
    | cons a w => exact Bool.noConfusion h
  | cons c t =>
    simp [includes, h]

theorem includes_dropWhile (w : List Char) (hw : w ≠ [])
    (hws : ∀ c ∈ w, isWsChar c = false) :
    ∀ t, includes t w = true → includes (t.dropWhile isWsChar) w = true := by
  intro t
  induction t with
  | nil =>
    intro h
    simp only [includes, List.isEmpty_iff] at h
    exact absurd h hw
  | cons c t ih =>
    intro h
    by_cases hc : isWsChar c = true
    · rw [List.dropWhile_cons, if_pos hc]
      apply ih
      simp only [includes, Bool.or_eq_true] at h
      rcases h with h | h
      · exfalso
        cases w with
        | nil => exact hw rfl
        | cons a w =>
          simp only [listPre, Bool.and_eq_true, beq_iff_eq] at h
          have := hws a (List.mem_cons_self a w)
          rw [h.1, hc] at this
          exact Bool.noConfusion this
      · exact h
    · rw [List.dropWhile_cons, if_neg hc]
      exact h

theorem includes_trimL (w : List Char) (hw : w ≠ [])
    (hws : ∀ c ∈ w, isWsChar c = false) (t : List Char)
    (h : includes t w = true) : includes (trimL t) w = true := by
  have h1 := includes_dropWhile w hw hws t h
  have h2 := includes_reverse _ _ h1
  have hw2 : w.reverse ≠ [] := by simpa using hw
  have hws2 : ∀ c ∈ w.reverse, isWsChar c = false := by
    intro c hc
    exact hws c (List.mem_reverse.mp hc)
  have h3 := includes_dropWhile w.reverse hw2 hws2 _ h2
  have h4 := includes_reverse _ _ h3
  rw [List.reverse_reverse] at h4
  exact h4

theorem replaceFirst_of_not_includes (w r t : List Char)
    (h : includes t w = false) : replaceFirst w r t = t := by
  induction t with
  | nil =>
    simp only [includes] at h
    simp [replaceFirst, h]
  | cons c t ih =>
    simp only [includes, Bool.or_eq_false_iff] at h
    rw [replaceFirst, if_neg (by simp [h.1]), ih h.2]

theorem scanOpt_none (w : List Char) (f : List Char → Option (List Char))
    (hf : ∀ s, ciPref w s = false → f s = none) :
    ∀ t, includes (jsLower t) w = false → scanOpt f t = none := by
  intro t
  induction t with
  | nil =>
    intro h
    cases w with
    | nil => simp [includes, jsLower] at h
    | cons a w =>
      rw [scanOpt]
      exact hf [] rfl
  | cons c t ih =>
    intro h
    have hj : jsLower (c :: t) = Char.toLower c :: jsLower t := rfl
    rw [hj] at h
    simp only [includes, Bool.or_eq_false_iff] at h
    have hcip : ciPref w (c :: t) = false := by
      unfold ciPref
      rw [hj]
      exact h.1
    simp only [scanOpt, hf _ hcip]
    exact ih h.2

theorem tryWordWsClass_none (w : List Char) (cls : Char → Bool) (s : List Char)
    (h : ciPref w s = false) : tryWordWsClass w cls s = none := by
  simp [tryWordWsClass, h]

theorem tryWordWsRest_none (w s : List Char) (h : ciPref w s = false) :
    tryWordWsRest w s = none := by
  simp [tryWordWsRest, h]

theorem tryMsgToRest_none (s : List Char) (h : ciPref messageWord s = false) :
    tryMsgToRest s = none := by
  simp [tryMsgToRest, h]

theorem extractContact_none (t : List Char)
    (h1 : includes (jsLower t) toWord = false)
    (h2 : includes (jsLower t) whatsappWord = false) :
    extractContact t = none := by
  unfold extractContact
  rw [scanOpt_none toWord _ (fun s hs => tryWordWsClass_none _ _ s hs) t h1,
    scanOpt_none whatsappWord _ (fun s hs => tryWordWsClass_none _ _ s hs) t h2]

theorem extractMessage_none (t : List Char)
    (h1 : includes (jsLower t) messageWord = false)
    (h2 : includes (jsLower t) textWord = false) :
    extractMessage t = none := by
  unfold extractMessage
  rw [scanOpt_none messageWord tryMsgToRest (fun s hs => tryMsgToRest_none s hs) t h1,
    scanOpt_none messageWord _ (fun s hs => tryWordWsRest_none _ s hs) t h1,
    scanOpt_none textWord _ (fun s hs => tryWordWsRest_none _ s hs) t h2]
  rfl

theorem extractAppName_none (t : List Char)
    (h : ∀ w ∈ allAppAliases, includes t w = false) :
    extractAppName t = none := by
  unfold extractAppName
  have hnone : APP_ALIASES.find? (fun p => p.2.any (fun w => includes t w)) = none := by
    rw [List.find?_eq_none]
    intro p hp hc
    simp only [List.any_eq_true] at hc
    obtain ⟨w, hw, hcw⟩ := hc
    rw [h w (List.mem_flatten.mpr ⟨p.2, List.mem_map_of_mem Prod.snd hp, hw⟩)] at hcw
    exact Bool.noConfusion hcw
  rw [hnone]
  rfl

theorem extractAppName_mem (t a : List Char) (h : extractAppName t = some a) :
    a ∈ APP_ALIASES.map Prod.fst := by
  unfold extractAppName at h
  cases hf : APP_ALIASES.find? (fun p => p.2.any (fun w => includes t w)) with
  | none => rw [hf] at h; exact Option.noConfusion h
  | some p =>
    rw [hf] at h
    simp only [Option.map_some'] at h
    rw [← Option.some.inj h]
    exact List.mem_map_of_mem Prod.fst (List.mem_of_find?_eq_some hf)

theorem appKeys_isEmpty_false : ∀ a ∈ APP_ALIASES.map Prod.fst, a.isEmpty = false := by
  decide

theorem openApp_keys_ok : ∀ a ∈ APP_ALIASES.map Prod.fst,
    openApp a ≠ OpenAppResult.unsupported := by
  decide

theorem isEmpty_false_of_wake (raw : List Char)
    (hW : matchesAny (trimL (jsLower raw)) detectWakeWords = true) :
    raw.isEmpty = false := by
  cases raw with
  | nil => exact absurd hW (by decide)
  | cons c t => rfl

theorem isEmpty_false_of_two_le (l : List Char) (h : 2 ≤ l.length) :
    l.isEmpty = false := by
  cases l with
  | nil => simp at h
  | cons a t => rfl

theorem detectIntent_gate (raw : List Char)
    (hW : matchesAny (trimL (jsLower raw)) detectWakeWords = true)
    (hL : 2 ≤ (cleanedText raw).length) :
    detectIntent raw =
      (if matchesAny (cleanedText raw) createFileKeywords then
        Intent.CREATE_FILE (extractFileName (cleanedText raw))
          (extractFileContent (cleanedText raw)) else
      if matchesAny (cleanedText raw) openKeywords
          && jsTruthy (extractAppName (cleanedText raw)) then
        Intent.OPEN_APP ((extractAppName (cleanedText raw)).getD []) else
      if matchesAny (cleanedText raw) volumeKeywords then
        Intent.VOLUME (extractNumber (cleanedText raw) 50) else
      if matchesAny (cleanedText raw) sendKeywords
          && jsTruthy (extractContact (cleanedText raw))
          && jsTruthy (extractMessage (cleanedText raw)) then
        Intent.SEND_MESSAGE ((extractContact (cleanedText raw)).getD [])
          ((extractMessage (cleanedText raw)).getD []) else
      Intent.AI_FALLBACK (cleanedText raw)) := by
  unfold detectIntent
  rw [if_neg (by simp [isEmpty_false_of_wake raw hW]),
    if_neg (by simp [hW]),
    if_neg (by simp [isEmpty_false_of_two_le _ hL, decide_eq_false (Nat.not_lt.mpr hL)])]

theorem detectIntent_open_inv (raw a : List Char)
    (h : detectIntent raw = Intent.OPEN_APP a) :
    extractAppName (cleanedText raw) = some a := by
  unfold detectIntent at h
  by_cases h0 : raw.isEmpty = true
  · rw [if_pos h0] at h
    exact Intent.noConfusion h
  rw [if_neg h0] at h
  by_cases h1 : (!matchesAny (trimL (jsLower raw)) detectWakeWords) = true
  · rw [if_pos h1] at h
    exact Intent.noConfusion h
  rw [if_neg h1] at h
  by_cases h2 : ((cleanedText raw).isEmpty || decide ((cleanedText raw).length < 2)) = true
  · rw [if_pos h2] at h
    exact Intent.noConfusion h
  rw [if_neg h2] at h
  by_cases h3 : matchesAny (cleanedText raw) createFileKeywords = true
  · rw [if_pos h3] at h
    exact Intent.noConfusion h
  rw [if_neg h3] at h
  by_cases h4 : (matchesAny (cleanedText raw) openKeywords
      && jsTruthy (extractAppName (cleanedText raw))) = true
  · rw [if_pos h4] at h
    have ht : jsTruthy (extractAppName (cleanedText raw)) = true := by
      simp only [Bool.and_eq_true] at h4
      exact h4.2
    cases happ : extractAppName (cleanedText raw) with
    | none =>
      rw [happ] at ht
      exact Bool.noConfusion ht
    | some s =>
      rw [happ] at h
      simp only [Option.getD_some] at h
      have hsa : s = a := by injection h
      rw [← hsa]
  rw [if_neg h4] at h
  by_cases h5 : matchesAny (cleanedText raw) volumeKeywords = true
  · rw [if_pos h5] at h
    exact Intent.noConfusion h
  rw [if_neg h5] at h
  by_cases h6 : (matchesAny (cleanedText raw) sendKeywords
      && jsTruthy (extractContact (cleanedText raw))
      && jsTruthy (extractMessage (cleanedText raw))) = true
  · rw [if_pos h6] at h
    exact Intent.noConfusion h
  rw [if_neg h6] at h
  exact Intent.noConfusion h

/- =========================
   Claim theorems
========================= -/

/-- C1: every utterance whose lowercased, trimmed text contains none of the
configured wake words (matching is case-insensitive substring containment,
as everywhere in the classifier) is returned as `CHAT` carrying the
original input string unchanged; the empty string yields `CHAT` with empty
text. -/
theorem claim1_chat_when_no_wake (raw : List Char)
    (h : matchesAny (trimL (jsLower raw)) detectWakeWords = false) :
    detectIntent raw = Intent.CHAT raw := by
  cases raw with
  | nil => rfl
  | cons c t =>
    unfold detectIntent
    rw [if_neg (by simp), if_pos (by simp [h])]

/-- Witness for C1 at the concrete utterance "hello there". -/
theorem claim1_witness :
    detectIntent (("hello there").data) = Intent.CHAT (("hello there").data) :=
  claim1_chat_when_no_wake (("hello there").data) (by decide)

/-- C2 counterexample: the exact utterance "send message to ram hello boss"
contains no wake word, so `detectIntent` returns `CHAT` with the text
unchanged — not the claimed `SEND_MESSAGE`. -/
theorem claim2_counterexample :
    detectIntent (("send message to ram hello boss").data)
        = Intent.CHAT (("send message to ram hello boss").data)
  ∧ detectIntent (("send message to ram hello boss").data)
        ≠ Intent.SEND_MESSAGE (("ram").data) (("hello boss").data) := by
  constructor
  · decide
  · decide

/-- C2 amended: with a wake word present, "bumba send message to ram hello
boss" is classified as `SEND_MESSAGE` with recipient "ram" and text
"hello boss". -/
theorem claim2_amended :
    detectIntent (("bumba send message to ram hello boss").data)
      = Intent.SEND_MESSAGE (("ram").data) (("hello boss").data) := by
  decide

/-- C3 counterexample: "bumba sound 5 volume 30" contains a wake word and
"volume" followed by 30, yet yields `VOLUME 5` (the first digit run wins);
"bumba open chrome volume 30" likewise contains "volume 30" but the
earlier open-app category wins. -/
theorem claim3_counterexample :
    detectIntent (("bumba sound 5 volume 30").data) = Intent.VOLUME 5
  ∧ detectIntent (("bumba sound 5 volume 30").data) ≠ Intent.VOLUME 30
  ∧ detectIntent (("bumba open chrome volume 30").data)
      = Intent.OPEN_APP (("chrome").data)
  ∧ detectIntent (("bumba open chrome volume 30").data) ≠ Intent.VOLUME 30 := by
  refine ⟨by decide, by decide, by decide, by decide⟩

/-- C3 amended: for an utterance with a wake word whose cleaned text is long
enough, matches no file-creation keyword, does not satisfy the open-app
category, and contains a volume keyword, `detectIntent` returns `VOLUME`
whose value is the first decimal digit run anywhere in the cleaned text;
when the cleaned text contains no digit at all, the value is the fallback
50. -/
theorem claim3_amended (raw : List Char)
    (hW : matchesAny (trimL (jsLower raw)) detectWakeWords = true)
    (hL : 2 ≤ (cleanedText raw).length)
    (hFile : matchesAny (cleanedText raw) createFileKeywords = false)
    (hOpen : (matchesAny (cleanedText raw) openKeywords
        && jsTruthy (extractAppName (cleanedText raw))) = false)
    (hVol : matchesAny (cleanedText raw) volumeKeywords = true) :
    detectIntent raw = Intent.VOLUME (extractNumber (cleanedText raw) 50)
  ∧ (firstDigitRun (cleanedText raw) = none →
      extractNumber (cleanedText raw) 50 = 50) := by
  constructor
  · rw [detectIntent_gate raw hW hL, if_neg (by simp [hFile]),
      if_neg (by simp [hOpen]), if_pos hVol]
  · intro h
    simp [extractNumber, h]

/-- Witness for C3 (amended) at "bumba volume 30". -/
theorem claim3_witness :
    detectIntent (("bumba volume 30").data) = Intent.VOLUME 30 := by
  have h := (claim3_amended (("bumba volume 30").data) (by decide) (by decide)
    (by decide) (by decide) (by decide)).1
  exact h.trans (by decide)

/-- C4: when the utterance contains a wake word and the remainder after
wake-word removal is empty or shorter than 2 characters, `detectIntent`
returns `WAKE_UP` carrying the raw input string. -/
theorem claim4_wake_alone (raw : List Char)
    (hW : matchesAny (trimL (jsLower raw)) detectWakeWords = true)
    (hL : (cleanedText raw).length < 2) :
    detectIntent raw = Intent.WAKE_UP raw := by
  unfold detectIntent
  rw [if_neg (by simp [isEmpty_false_of_wake raw hW]), if_neg (by simp [hW]),
    if_pos (by simp [decide_eq_true hL])]

/-- Witness for C4 at the bare wake word "bumba". -/
theorem claim4_witness :
    detectIntent (("bumba").data) = Intent.WAKE_UP (("bumba").data) :=
  claim4_wake_alone (("bumba").data) (by decide) (by decide)

/-- C5: once the wake-word gate passes and the cleaned text is long enough,
the categories are tested in order (file creation, then open/launch, then
volume, then send/message); a category fires only when its keywords match
and its required slots extract to truthy values, otherwise control falls
through, and when nothing fires the result is `AI_FALLBACK` — never a
failure. -/
theorem claim5_category_order (raw : List Char)
    (hW : matchesAny (trimL (jsLower raw)) detectWakeWords = true)
    (hL : 2 ≤ (cleanedText raw).length) :
    (matchesAny (cleanedText raw) createFileKeywords = true →
      detectIntent raw = Intent.CREATE_FILE (extractFileName (cleanedText raw))
        (extractFileContent (cleanedText raw)))
  ∧ (matchesAny (cleanedText raw) createFileKeywords = false →
     matchesAny (cleanedText raw) openKeywords = true →
     ∀ a, extractAppName (cleanedText raw) = some a →
      detectIntent raw = Intent.OPEN_APP a)
  ∧ (matchesAny (cleanedText raw) createFileKeywords = false →
     (matchesAny (cleanedText raw) openKeywords
        && jsTruthy (extractAppName (cleanedText raw))) = false →
     matchesAny (cleanedText raw) volumeKeywords = true →
      detectIntent raw = Intent.VOLUME (extractNumber (cleanedText raw) 50))
  ∧ (matchesAny (cleanedText raw) createFileKeywords = false →
     (matchesAny (cleanedText raw) openKeywords
        && jsTruthy (extractAppName (cleanedText raw))) = false →
     matchesAny (cleanedText raw) volumeKeywords = false →
     matchesAny (cleanedText raw) sendKeywords = true →
     jsTruthy (extractContact (cleanedText raw)) = true →
     jsTruthy (extractMessage (cleanedText raw)) = true →
      detectIntent raw = Intent.SEND_MESSAGE
        ((extractContact (cleanedText raw)).getD [])
        ((extractMessage (cleanedText raw)).getD []))
  ∧ (matchesAny (cleanedText raw) createFileKeywords = false →
     (matchesAny (cleanedText raw) openKeywords
        && jsTruthy (extractAppName (cleanedText raw))) = false →
     matchesAny (cleanedText raw) volumeKeywords = false →
     (matchesAny (cleanedText raw) sendKeywords
        && jsTruthy (extractContact (cleanedText raw))
        && jsTruthy (extractMessage (cleanedText raw))) = false →
      detectIntent raw = Intent.AI_FALLBACK (cleanedText raw)) := by
  refine ⟨?_, ?_, ?_, ?_, ?_⟩
  · intro hF
    rw [detectIntent_gate raw hW hL, if_pos hF]
  · intro hF hO a ha
    have hmem : a ∈ APP_ALIASES.map Prod.fst := extractAppName_mem _ _ ha
    have hne : a.isEmpty = false := appKeys_isEmpty_false a hmem
    rw [detectIntent_gate raw hW hL, if_neg (by simp [hF]),
      if_pos (by simp [hO, ha, jsTruthy, hne])]
    simp [ha]
  · intro hF hO hV
    rw [detectIntent_gate raw hW hL, if_neg (by simp [hF]),
      if_neg (by simp [hO]), if_pos hV]
  · intro hF hO hV hS hc hm
    rw [detectIntent_gate raw hW hL, if_neg (by simp [hF]),
      if_neg (by simp [hO]), if_neg (by simp [hV]),
      if_pos (by simp [hS, hc, hm])]
  · intro hF hO hV hS
    rw [detectIntent_gate raw hW hL, if_neg (by simp [hF]),
      if_neg (by simp [hO]), if_neg (by simp [hV]), if_neg (by simp [hS])]

/-- Witness for C5 at "bumba open chrome": the open/launch category fires
with the extracted app "chrome". -/
theorem claim5_witness :
    detectIntent (("bumba open chrome").data) = Intent.OPEN_APP (("chrome").data) :=
  (claim5_category_order (("bumba open chrome").data) (by decide)
      (by decide)).2.1 (by decide) (by decide) (("chrome").data) (by decide)

/-- C6: `detectIntent` is a total function on strings — for every input,
the empty string included, it returns exactly one `Intent` value; in this
embedding it is a total computable function, so it can neither throw nor
produce anything outside the `Intent` union. -/
theorem claim6_total (raw : List Char) : ∃! i : Intent, detectIntent raw = i :=
  ⟨detectIntent raw, rfl, fun _ hy => hy.symm⟩

/-- C7: `dispatch` performs exactly one action call for each of the three
recognized tags — `openApp(app)` for `OPEN_APP`, `setVolume(value)` for
`VOLUME`, `sendMessage(to, text)` for `SEND_MESSAGE` — and for every other
variant it emits exactly one log line and invokes no action function;
every dispatch produces exactly one effect. -/
theorem claim7_dispatch_mapping :
    (∀ a, dispatch (Intent.OPEN_APP a) = ⟨[ActionCall.openAppCall a], []⟩)
  ∧ (∀ v, dispatch (Intent.VOLUME v) = ⟨[ActionCall.setVolumeCall v], []⟩)
  ∧ (∀ r m, dispatch (Intent.SEND_MESSAGE r m)
      = ⟨[ActionCall.sendMessageCall r m], []⟩)
  ∧ (∀ t, dispatch (Intent.CHAT t) = ⟨[], [some t]⟩)
  ∧ (∀ n c, dispatch (Intent.CREATE_FILE n c) = ⟨[], [none]⟩)
  ∧ (∀ r, dispatch (Intent.WAKE_UP r) = ⟨[], [none]⟩)
  ∧ (∀ r, dispatch (Intent.AI_FALLBACK r) = ⟨[], [none]⟩)
  ∧ (∀ i, (dispatch i).actions.length + (dispatch i).logs.length = 1) := by
  refine ⟨fun a => rfl, fun v => rfl, fun r m => rfl, fun t => rfl,
    fun n c => rfl, fun r => rfl, fun r => rfl, fun i => ?_⟩
  cases i <;> rfl

/-- C8: the slot extractors are total functions in this embedding (so they
cannot throw), and on any input containing none of their trigger keywords
they return the absent result `none`; being pure functions, re-running one
on such an input returns `none` again. -/
theorem claim8_extractors_absent (t : List Char) :
    ((∀ w ∈ allAppAliases, includes t w = false) → extractAppName t = none)
  ∧ ((includes (jsLower t) toWord = false ∧
      includes (jsLower t) whatsappWord = false) → extractContact t = none)
  ∧ ((includes (jsLower t) messageWord = false ∧
      includes (jsLower t) textWord = false) → extractMessage t = none) :=
  ⟨fun h => extractAppName_none t h,
   fun h => extractContact_none t h.1 h.2,
   fun h => extractMessage_none t h.1 h.2⟩

/-- Witness for C8 at the keyword-free input "hello world". -/
theorem claim8_witness :
    extractAppName (("hello world").data) = none
  ∧ extractContact (("hello world").data) = none
  ∧ extractMessage (("hello world").data) = none :=
  ⟨(claim8_extractors_absent (("hello world").data)).1 (by decide),
   (claim8_extractors_absent (("hello world").data)).2.1 ⟨by decide, by decide⟩,
   (claim8_extractors_absent (("hello world").data)).2.2 ⟨by decide, by decide⟩⟩

/-- C9: the wake-word gate and the wake-word stripper disagree on
"assistance": it is in `detectIntent`'s wake list but not in
`removeWakeWord`'s `WAKE_WORDS`; the utterance "assistance" alone is
classified as `AI_FALLBACK` carrying "assistance" (not `WAKE_UP`); and in
any text containing "assistance" but no "bumba"-based wake word, the word
survives wake-word removal into the cleaned text. -/
theorem claim9_assistance_divergence :
    (assistWord ∈ detectWakeWords ∧ assistWord ∉ WAKE_WORDS)
  ∧ detectIntent assistWord = Intent.AI_FALLBACK assistWord
  ∧ ∀ t, includes t assistWord = true → includes t bumbaWord = false →
      includes (removeWakeWord t) assistWord = true := by
  refine ⟨by decide, by decide, ?_⟩
  intro t hA hB
  have hHey : includes t heyBumbaWord = false := by
    cases hcontra : includes t heyBumbaWord with
    | false => rfl
    | true =>
      have h2 : includes t bumbaWord = true := by
        have : heyBumbaWord = ("hey ").data ++ bumbaWord := by decide
        rw [this] at hcontra
        exact includes_of_prefix_word t (("hey ").data) bumbaWord hcontra
      rw [hB] at h2
      exact Bool.noConfusion h2
  have hOk : includes t okBumbaWord = false := by
    cases hcontra : includes t okBumbaWord with
    | false => rfl
    | true =>
      have h2 : includes t bumbaWord = true := by
        have : okBumbaWord = ("ok ").data ++ bumbaWord := by decide
        rw [this] at hcontra
        exact includes_of_prefix_word t (("ok ").data) bumbaWord hcontra
      rw [hB] at h2
      exact Bool.noConfusion h2
  unfold removeWakeWord WAKE_WORDS
  simp only [List.foldl_cons, List.foldl_nil]
  rw [replaceFirst_of_not_includes _ _ _ hB,
    replaceFirst_of_not_includes _ _ _ hHey,
    replaceFirst_of_not_includes _ _ _ hOk]
  exact includes_trimL assistWord (by decide) (by decide) t hA

/-- Witness for C9 at the text "please assistance now". -/
theorem claim9_witness :
    includes (removeWakeWord (("please assistance now").data)) assistWord = true :=
  claim9_assistance_divergence.2.2 (("please assistance now").data)
    (by decide) (by decide)

/-- C10: the key set of `APP_ALIASES` equals the key set of `APP_COMMANDS`;
every `OPEN_APP` intent produced by `detectIntent` carries a key from that
set, so `openApp` never reaches its unsupported-app branch on a
classifier-produced intent. -/
theorem claim10_open_app_closed :
    (APP_ALIASES.map Prod.fst = APP_COMMANDS.map Prod.fst)
  ∧ ∀ raw a, detectIntent raw = Intent.OPEN_APP a →
      a ∈ APP_ALIASES.map Prod.fst ∧ openApp a ≠ OpenAppResult.unsupported := by
  refine ⟨by decide, fun raw a h => ?_⟩
  have happ := detectIntent_open_inv raw a h
  have hmem := extractAppName_mem _ _ happ
  exact ⟨hmem, openApp_keys_ok a hmem⟩

/-- Witness for C10 at "bumba open notepad". -/
theorem claim10_witness :
    (("notepad").data) ∈ APP_ALIASES.map Prod.fst
  ∧ openApp (("notepad").data) ≠ OpenAppResult.unsupported :=
  claim10_open_app_closed.2 (("bumba open notepad").data) (("notepad").data)
    (by decide)

end VoiceAssist
